import Mathlib

/-!
Shallow embedding of the image-similarity subsystem of the synaptiq backend
(src/backend/app.py, src/backend/new-features/build_meta.py,
src/backend/new-features/make_vectors.py, src/backend/new-features/query_view.py),
together with theorems settling the specification claims about it.

Embeddings and similarity scores are modelled over the rationals; the
ResNet-18 backbone is abstracted as a function from image paths to vectors.
-/

set_option maxRecDepth 8000

namespace Synaptiq

/-- Dot product of two rational vectors (models a row of `np.dot`). -/
def dotQ (xs ys : List ℚ) : ℚ := ((xs.zip ys).map (fun p => p.1 * p.2)).sum

/-- `np.dot(matrix, vector)`: numpy validates the shapes before computing any
products and raises on a dimension mismatch; modelled as `Except`. -/
def matDot (m : List (List ℚ)) (v : List ℚ) : Except String (List ℚ) :=
  if m.all (fun row => row.length == v.length) then
    .ok (m.map (fun row => dotQ row v))
  else
    .error "shapes not aligned"

/-- `np.argsort(xs)`: indices `0..n-1` reordered so the values are
non-decreasing along the result. -/
def argsort (xs : List ℚ) : List Nat :=
  List.insertionSort (fun i j => xs.getD i 0 ≤ xs.getD j 0) (List.range xs.length)

/-- Python slicing `xs[:k]` for an arbitrary integer `k` (a negative `k`
drops the last `|k|` elements). -/
def pySlice {α : Type} (xs : List α) (k : Int) : List α :=
  if k < 0 then xs.take ((xs.length : Int) + k).toNat else xs.take k.toNat

/-- One entry of the in-memory `real_image_paths` table of app.py. -/
structure ImageInfo where
  path : String
  tumor_type : String
  filename : String
deriving DecidableEq

/-- One entry of the result list built by `find_similar_cases`. -/
structure CaseResult where
  rank : Nat
  case_id : Nat
  label : String
  file_path : String
  filename : String
  similarity_score : ℚ
deriving DecidableEq

/-- The value returned by `find_similar_cases`: either an error payload or a
`similar_cases` list. -/
inductive SearchOutput where
  | error (msg : String)
  | ok (similar_cases : List CaseResult)
deriving DecidableEq

/-- The process-wide mutable globals of app.py that the query path reads:
`vector_model` (the embedder, abstracted as path → vector), the
`real_image_embeddings` matrix, and the `real_image_paths` table. -/
structure SearchState where
  vector_model : Option (String → List ℚ)
  real_image_embeddings : Option (List (List ℚ))
  real_image_paths : Option (List ImageInfo)

/-- The result-building loop of `find_similar_cases`: for each selected index
(in order) look up `real_image_paths[idx]` and `similarities[idx]` and emit a
record whose `rank` and `case_id` are both the running 1-based counter.  A
failed lookup models the Python `IndexError`/`TypeError` caught by the
surrounding `except`. -/
def buildResults (ps : List ImageInfo) (sims : List ℚ) :
    List Nat → Nat → Except String (List CaseResult)
  | [], _ => .ok []
  | idx :: rest, rank =>
    match ps[idx]?, sims[idx]? with
    | some info, some score =>
      match buildResults ps sims rest (rank + 1) with
      | .ok rs =>
        .ok ({ rank := rank, case_id := rank, label := info.tumor_type,
               file_path := info.path, filename := info.filename,
               similarity_score := score } :: rs)
      | .error e => .error e
    | _, _ => .error "list index out of range"

/-- `find_similar_cases(img_path, top_k)` of app.py: refuse when the model or
the embedding matrix is absent; otherwise embed the query, compute
`similarities = np.dot(real_image_embeddings, query_vec)`, select
`np.argsort(similarities)[::-1][:top_k]`, and build the ranked result list.
Any exception inside the `try` surfaces as a `Vector search failed` payload. -/
def find_similar_cases (st : SearchState) (img_path : String) (top_k : Int) :
    SearchOutput :=
  match st.vector_model, st.real_image_embeddings with
  | some model, some embs =>
    let query_vec := model img_path
    match matDot embs query_vec with
    | .ok sims =>
      let top_indices := pySlice (argsort sims).reverse top_k
      match buildResults (st.real_image_paths.getD []) sims top_indices 1 with
      | .ok results => .ok results
      | .error e => .error ("Vector search failed: " ++ e)
    | .error e => .error ("Vector search failed: " ++ e)
  | _, _ => .error "Vector search not available"

/-- `find_similar_cases` with the process-wide state threaded explicitly:
the body only reads the globals, so each branch returns the state it was
given. -/
def find_similar_cases_full (st : SearchState) (img_path : String)
    (top_k : Int) : SearchState × SearchOutput :=
  match st.vector_model, st.real_image_embeddings with
  | some model, some embs =>
    let query_vec := model img_path
    match matDot embs query_vec with
    | .ok sims =>
      let top_indices := pySlice (argsort sims).reverse top_k
      match buildResults (st.real_image_paths.getD []) sims top_indices 1 with
      | .ok results => (st, .ok results)
      | .error e => (st, .error ("Vector search failed: " ++ e))
    | .error e => (st, .error ("Vector search failed: " ++ e))
  | _, _ => (st, .error "Vector search not available")

/-- Sum of squares of a rational vector: the square of its L2 norm.
A vector is unit-norm exactly when this is 1. -/
def sumSq (v : List ℚ) : ℚ := (v.map (fun x => x * x)).sum

/-- Division of a vector by a scalar (`vec / np.linalg.norm(vec)`). -/
def normalizeVec (v : List ℚ) (n : ℚ) : List ℚ := v.map (fun x => x / n)

/-- `embed_image` of app.py: run the backbone on the image and divide the
feature vector by its own L2 norm.  The backbone and the norm computation
`np.linalg.norm` are abstracted as function parameters; theorems constrain
`nrm` to return the L2 norm of the vectors it is applied to. -/
def embed_image (backbone : String → List ℚ) (nrm : List ℚ → ℚ)
    (img : String) : List ℚ :=
  normalizeVec (backbone img) (nrm (backbone img))

/-- One metadata row written by build_meta.py. -/
structure MetaRow where
  id : Nat
  file_path : String
  label : String
deriving DecidableEq

/-- build_meta.py: walk the class directories (given as name × image-file
list), assign the running counter as id to every image file found — the file
is never opened or decoded here — and record its path and lower-cased label. -/
def build_meta : List (String × List String) → Nat → List MetaRow
  | [], _ => []
  | (dirname, files) :: rest, c =>
    (files.enum.map (fun p =>
      { id := c + p.1, file_path := dirname ++ "/" ++ p.2,
        label := dirname.toLower })) ++
    build_meta rest (c + files.length)

/-- Total number of image files in a build-input directory tree. -/
def totalFiles (dirs : List (String × List String)) : Nat :=
  (dirs.map (fun d => d.2.length)).sum

/-- The main loop of make_vectors.py: open and embed every metadata file path
in order.  `Image.open` is not wrapped in any try/except, so a decode failure
(`decode p = none`) raises and aborts the whole run; on success the vector is
L2-normalised and collected. -/
def make_vectors (decode : String → Option (List ℚ)) (nrm : List ℚ → ℚ) :
    List String → Except String (List (List ℚ))
  | [] => .ok []
  | p :: rest =>
    match decode p with
    | none => .error p
    | some v =>
      match make_vectors decode nrm rest with
      | .ok vs => .ok (normalizeVec v (nrm v) :: vs)
      | .error e => .error e

/-- One directory of `load_real_image_embeddings` of app.py: embed each image
of the class directory; on success append the path record and the embedding
together, on failure (the `except` branch) skip the image and continue. -/
def loadDir (embed : String → Option (List ℚ)) (tumor_type : String) :
    List String → List ImageInfo × List (List ℚ)
  | [] => ([], [])
  | f :: fs =>
    match embed (tumor_type ++ "/" ++ f) with
    | some v =>
      ((⟨tumor_type ++ "/" ++ f, tumor_type, f⟩ : ImageInfo) ::
        (loadDir embed tumor_type fs).1,
       v :: (loadDir embed tumor_type fs).2)
    | none => loadDir embed tumor_type fs

/-- `load_real_image_embeddings` of app.py: walk the class directories of
`data/Testing`, embedding every image and collecting the parallel
`real_image_paths` and `real_image_embeddings` tables. -/
def load_real_image_embeddings (embed : String → Option (List ℚ)) :
    List (String × List String) → List ImageInfo × List (List ℚ)
  | [] => ([], [])
  | (tt, files) :: rest =>
    ((loadDir embed tt files).1 ++ (load_real_image_embeddings embed rest).1,
     (loadDir embed tt files).2 ++ (load_real_image_embeddings embed rest).2)

/-- Number of images in the tree that the given embedder embeds successfully. -/
def countOk (embed : String → Option (List ℚ))
    (dirs : List (String × List String)) : Nat :=
  (dirs.map (fun d =>
    (d.2.filter (fun f => (embed (d.1 ++ "/" ++ f)).isSome)).length)).sum

/-! ### Concrete inputs used by witnesses and counterexamples -/

/-- A concrete embedder: every image maps to the unit vector `[1, 0, 0]`. -/
def modelW : String → List ℚ := fun _ => [1, 0, 0]

/-- Five stored unit-norm embedding rows. -/
def embsFive : List (List ℚ) :=
  [[1, 0, 0], [0, 1, 0], [0, 0, 1], [-1, 0, 0], [0, -1, 0]]

/-- The metadata table aligned with `embsFive`. -/
def pathsFive : List ImageInfo :=
  [⟨"p0", "glioma", "f0"⟩, ⟨"p1", "meningioma", "f1"⟩, ⟨"p2", "pituitary", "f2"⟩,
   ⟨"p3", "notumor", "f3"⟩, ⟨"p4", "glioma", "f4"⟩]

/-- A fully initialized five-row search state. -/
def stFive : SearchState := ⟨some modelW, some embsFive, some pathsFive⟩

/-- An uninitialized search state (before `initialize_vector_search`). -/
def stNone : SearchState := ⟨none, none, none⟩

/-- A build tree with ten images, one of which is corrupt. -/
def dirsTen : List (String × List String) :=
  [("glioma", ["g0.jpg", "g1.jpg", "g2.jpg", "g3.jpg", "corrupt.jpg"]),
   ("meningioma", ["m0.jpg", "m1.jpg", "m2.jpg", "m3.jpg", "m4.jpg"])]

/-- A decoder that fails on the corrupt image and succeeds elsewhere. -/
def decodeTen : String → Option (List ℚ) :=
  fun p => if p = "glioma/corrupt.jpg" then none else some [1]

/-- A norm oracle adequate for the vectors produced by `decodeTen`. -/
def nrmOne : List ℚ → ℚ := fun _ => 1

/-- A backbone producing a 512-dimensional feature vector of squared norm 25. -/
def backboneW : String → List ℚ := fun _ => 3 :: 4 :: List.replicate 510 0

/-- A norm oracle returning 5, the L2 norm of both `backboneW`'s output and
`[3, 4]`. -/
def nrmW : List ℚ → ℚ := fun _ => 5

/-- A decoder producing the vector `[3, 4]` for every image. -/
def decodeW : String → Option (List ℚ) := fun _ => some [3, 4]

/-- An embedder whose output length is 3, not 512. -/
def modelBad : String → List ℚ := fun _ => [1, 2, 3]

/-- A one-row stored matrix of 512-dimensional embeddings. -/
def embs512 : List (List ℚ) := [List.replicate 512 0]

/-- A state whose stored dimension (512) differs from the query dimension (3). -/
def stBad : SearchState := ⟨some modelBad, some embs512, some []⟩

/-- The result list returned by `find_similar_cases stFive "q" 3`. -/
def rsThree : List CaseResult :=
  [⟨1, 1, "glioma", "p0", "f0", 1⟩,
   ⟨2, 2, "glioma", "p4", "f4", 0⟩,
   ⟨3, 3, "pituitary", "p2", "f2", 0⟩]

/-! ### Properties of the selection primitives -/

theorem argsort_perm (xs : List ℚ) : (argsort xs).Perm (List.range xs.length) :=
  List.perm_insertionSort _ _

theorem argsort_length (xs : List ℚ) : (argsort xs).length = xs.length := by
  have := (argsort_perm xs).length_eq
  simpa using this

theorem argsort_sorted (xs : List ℚ) :
    List.Pairwise (fun i j => xs.getD i 0 ≤ xs.getD j 0) (argsort xs) := by
  haveI : IsTotal ℕ (fun i j => xs.getD i 0 ≤ xs.getD j 0) := ⟨fun a b => le_total _ _⟩
  haveI : IsTrans ℕ (fun i j => xs.getD i 0 ≤ xs.getD j 0) :=
    ⟨fun a b c h1 h2 => le_trans h1 h2⟩
  exact List.sorted_insertionSort _ _

theorem argsort_reverse_sorted (xs : List ℚ) :
    List.Pairwise (fun i j => xs.getD j 0 ≤ xs.getD i 0) (argsort xs).reverse :=
  List.pairwise_reverse.mpr (argsort_sorted xs)

theorem mem_argsort_reverse {xs : List ℚ} {i : ℕ} :
    i ∈ (argsort xs).reverse ↔ i < xs.length := by
  rw [List.mem_reverse, (argsort_perm xs).mem_iff, List.mem_range]

theorem argsort_reverse_nodup (xs : List ℚ) : (argsort xs).reverse.Nodup :=
  List.nodup_reverse.mpr ((argsort_perm xs).symm.nodup (List.nodup_range _))

theorem argsort_reverse_length (xs : List ℚ) :
    (argsort xs).reverse.length = xs.length := by
  simp [argsort_length]

theorem pySlice_eq_take {α : Type} (xs : List α) (k : Int) :
    ∃ n : ℕ, pySlice xs k = xs.take n := by
  unfold pySlice
  split
  · exact ⟨_, rfl⟩
  · exact ⟨_, rfl⟩

theorem pySlice_nonneg {α : Type} (xs : List α) (k : Int) (hk : 0 ≤ k) :
    pySlice xs k = xs.take k.toNat := by
  unfold pySlice
  split
  · omega
  · rfl

theorem matDot_ok_of_rows {m : List (List ℚ)} {v : List ℚ}
    (hrows : ∀ row ∈ m, row.length = v.length) :
    matDot m v = .ok (m.map (fun row => dotQ row v)) := by
  unfold matDot
  rw [if_pos]
  exact List.all_eq_true.mpr (fun row hrow => by simp [hrows row hrow])

theorem matDot_ok_elim {m : List (List ℚ)} {v sims : List ℚ}
    (h : matDot m v = .ok sims) : sims = m.map (fun row => dotQ row v) := by
  unfold matDot at h
  split at h
  · simpa using h.symm
  · simp at h

theorem matDot_mismatch {m : List (List ℚ)} {v : List ℚ} (hne : m ≠ [])
    (hrows : ∀ row ∈ m, row.length = 512) (hv : v.length ≠ 512) :
    matDot m v = .error "shapes not aligned" := by
  unfold matDot
  rw [if_neg]
  intro hall
  match m, hne with
  | row :: rest, _ =>
    have := List.all_eq_true.mp hall row (by simp)
    have hrow := hrows row (by simp)
    simp only [beq_iff_eq] at this
    omega

/-! ### Properties of the result-building loop -/

theorem buildResults_nil (ps : List ImageInfo) (sims : List ℚ) (r0 : ℕ) :
    buildResults ps sims [] r0 = .ok [] := rfl

theorem buildResults_length (ps : List ImageInfo) (sims : List ℚ) :
    ∀ (top : List ℕ) (r0 : ℕ) (rs : List CaseResult),
      buildResults ps sims top r0 = .ok rs → rs.length = top.length := by
  intro top
  induction top with
  | nil => intro r0 rs h; simp [buildResults] at h; simp [← h]
  | cons idx rest ih =>
    intro r0 rs h
    cases hp : ps[idx]? with
    | none => simp [buildResults, hp] at h
    | some info =>
      cases hs : sims[idx]? with
      | none => simp [buildResults, hp, hs] at h
      | some score =>
        cases hb : buildResults ps sims rest (r0 + 1) with
        | error e => simp [buildResults, hp, hs, hb] at h
        | ok rs' =>
          simp [buildResults, hp, hs, hb] at h
          subst h
          simp [ih (r0 + 1) rs' hb]

theorem buildResults_ranks (ps : List ImageInfo) (sims : List ℚ) :
    ∀ (top : List ℕ) (r0 : ℕ) (rs : List CaseResult),
      buildResults ps sims top r0 = .ok rs →
      ∀ i (hi : i < rs.length),
        (rs.get ⟨i, hi⟩).case_id = r0 + i ∧ (rs.get ⟨i, hi⟩).rank = r0 + i := by
  intro top
  induction top with
  | nil =>
    intro r0 rs h
    simp [buildResults] at h
    subst h
    intro i hi
    simp at hi
  | cons idx rest ih =>
    intro r0 rs h
    cases hp : ps[idx]? with
    | none => simp [buildResults, hp] at h
    | some info =>
      cases hs : sims[idx]? with
      | none => simp [buildResults, hp, hs] at h
      | some score =>
        cases hb : buildResults ps sims rest (r0 + 1) with
        | error e => simp [buildResults, hp, hs, hb] at h
        | ok rs' =>
          simp [buildResults, hp, hs, hb] at h
          subst h
          intro i hi
          cases i with
          | zero => simp
          | succ j =>
            have hj : j < rs'.length := by simpa using hi
            have := ih (r0 + 1) rs' hb j hj
            constructor
            · simpa [Nat.add_assoc, Nat.add_comm 1 j] using this.1
            · simpa [Nat.add_assoc, Nat.add_comm 1 j] using this.2

theorem buildResults_scores (ps : List ImageInfo) (sims : List ℚ) :
    ∀ (top : List ℕ) (r0 : ℕ) (rs : List CaseResult),
      buildResults ps sims top r0 = .ok rs →
      rs.map CaseResult.similarity_score = top.map (fun idx => sims.getD idx 0) := by
  intro top
  induction top with
  | nil => intro r0 rs h; simp [buildResults] at h; simp [← h]
  | cons idx rest ih =>
    intro r0 rs h
    cases hp : ps[idx]? with
    | none => simp [buildResults, hp] at h
    | some info =>
      cases hs : sims[idx]? with
      | none => simp [buildResults, hp, hs] at h
      | some score =>
        cases hb : buildResults ps sims rest (r0 + 1) with
        | error e => simp [buildResults, hp, hs, hb] at h
        | ok rs' =>
          simp [buildResults, hp, hs, hb] at h
          subst h
          have hscore : sims[idx]?.getD 0 = score := by
            simp [hs]
          simp [ih (r0 + 1) rs' hb, hscore]

theorem buildResults_payload (ps : List ImageInfo) (sims : List ℚ) :
    ∀ (top : List ℕ) (r0 : ℕ) (rs : List CaseResult),
      buildResults ps sims top r0 = .ok rs →
      List.Forall₂ (fun idx r =>
        ps[idx]? = some ⟨r.file_path, r.label, r.filename⟩ ∧
        sims[idx]? = some r.similarity_score) top rs := by
  intro top
  induction top with
  | nil =>
    intro r0 rs h
    simp [buildResults] at h
    subst h
    exact List.Forall₂.nil
  | cons idx rest ih =>
    intro r0 rs h
    cases hp : ps[idx]? with
    | none => simp [buildResults, hp] at h
    | some info =>
      cases hs : sims[idx]? with
      | none => simp [buildResults, hp, hs] at h
      | some score =>
        cases hb : buildResults ps sims rest (r0 + 1) with
        | error e => simp [buildResults, hp, hs, hb] at h
        | ok rs' =>
          simp [buildResults, hp, hs, hb] at h
          subst h
          exact List.Forall₂.cons ⟨hp, hs⟩ (ih (r0 + 1) rs' hb)

theorem buildResults_isOk (ps : List ImageInfo) (sims : List ℚ) :
    ∀ (top : List ℕ), (∀ idx ∈ top, idx < ps.length) →
      (∀ idx ∈ top, idx < sims.length) →
      ∀ r0, ∃ rs, buildResults ps sims top r0 = .ok rs := by
  intro top
  induction top with
  | nil => intro _ _ r0; exact ⟨[], rfl⟩
  | cons idx rest ih =>
    intro h1 h2 r0
    obtain ⟨rs', hb⟩ := ih (fun i hi => h1 i (by simp [hi]))
      (fun i hi => h2 i (by simp [hi])) (r0 + 1)
    have hp := List.getElem?_eq_getElem (h1 idx (by simp))
    have hs := List.getElem?_eq_getElem (h2 idx (by simp))
    simp only [buildResults, hp, hs, hb]
    exact ⟨_, rfl⟩

/-! ### Inversion for `find_similar_cases` -/

theorem find_ok_inv {st : SearchState} {img : String} {k : Int}
    {rs : List CaseResult} (h : find_similar_cases st img k = .ok rs) :
    ∃ model embs sims,
      st.vector_model = some model ∧ st.real_image_embeddings = some embs ∧
      matDot embs (model img) = .ok sims ∧
      buildResults (st.real_image_paths.getD []) sims
        (pySlice (argsort sims).reverse k) 1 = .ok rs := by
  cases hm : st.vector_model with
  | none => simp [find_similar_cases, hm] at h
  | some model =>
    cases he : st.real_image_embeddings with
    | none => simp [find_similar_cases, hm, he] at h
    | some embs =>
      cases hd : matDot embs (model img) with
      | error e => simp [find_similar_cases, hm, he, hd] at h
      | ok sims =>
        cases hb : buildResults (st.real_image_paths.getD []) sims
            (pySlice (argsort sims).reverse k) 1 with
        | error e => simp [find_similar_cases, hm, he, hd, hb] at h
        | ok rs' =>
          refine ⟨model, embs, sims, rfl, rfl, hd, ?_⟩
          simp [find_similar_cases, hm, he, hd, hb] at h
          rw [hb, h]

/-! ### Assembly lemma -/

theorem find_similar_eq {st : SearchState} {img : String} {k : Int}
    {model : String → List ℚ} {embs : List (List ℚ)} {sims : List ℚ}
    {rs : List CaseResult}
    (hm : st.vector_model = some model) (he : st.real_image_embeddings = some embs)
    (hd : matDot embs (model img) = .ok sims)
    (hb : buildResults (st.real_image_paths.getD []) sims
      (pySlice (argsort sims).reverse k) 1 = .ok rs) :
    find_similar_cases st img k = .ok rs := by
  simp only [find_similar_cases, hm, he, hd, hb]

/-! ### Claim theorems -/

/-- C6: a call to `find_similar_cases` made before the model and the index
have been initialized (the model or the embedding matrix is absent) returns
the search-unavailable error payload, never a successful result list. -/
theorem find_similar_unavailable (st : SearchState) (img : String) (k : Int)
    (h : st.vector_model = none ∨ st.real_image_embeddings = none) :
    find_similar_cases st img k = .error "Vector search not available" := by
  rcases h with h | h
  · simp [find_similar_cases, h]
  · cases hm : st.vector_model <;> simp [find_similar_cases, hm, h]

theorem find_similar_unavailable_witness :
    find_similar_cases stNone "q" 8 = .error "Vector search not available" :=
  find_similar_unavailable stNone "q" 8 (Or.inl rfl)

/-- C8: queries never mutate the index: with the process-wide state threaded
explicitly through the query, the state after any `find_similar_cases` call
is identical to the state before it, and the returned output agrees with the
read-only formulation. -/
theorem find_similar_frame (st : SearchState) (img : String) (k : Int) :
    (find_similar_cases_full st img k).1 = st ∧
    (find_similar_cases_full st img k).2 = find_similar_cases st img k := by
  unfold find_similar_cases_full find_similar_cases
  cases hm : st.vector_model with
  | none => simp
  | some model =>
    cases he : st.real_image_embeddings with
    | none => simp
    | some embs =>
      cases hd : matDot embs (model img) with
      | error e => simp [hd]
      | ok sims =>
        cases hb : buildResults (st.real_image_paths.getD []) sims
            (pySlice (argsort sims).reverse k) 1 with
        | error e => simp [hd, hb]
        | ok rs => simp [hd, hb]

/-- Concrete evaluation: the three-neighbour query against `stFive`. -/
theorem stFive_query_three : find_similar_cases stFive "q" 3 = .ok rsThree := by
  norm_num [find_similar_cases, stFive, modelW, embsFive, pathsFive, matDot, dotQ,
    argsort, pySlice, buildResults, rsThree, List.insertionSort, List.orderedInsert]

/-- C9: in every successful result, `case_id` equals the entry's 1-based rank
in the list (`case_id = rank = position + 1`); it is not the stored atlas
identifier of the matched image, which is only identified by the
`file_path`/`filename`/`label` payload. -/
theorem find_similar_case_id_is_rank {st : SearchState} {img : String}
    {k : Int} {rs : List CaseResult}
    (h : find_similar_cases st img k = .ok rs)
    (i : ℕ) (r : CaseResult) (hir : rs[i]? = some r) :
    r.case_id = i + 1 ∧ r.rank = i + 1 := by
  obtain ⟨model, embs, sims, hm, he, hd, hb⟩ := find_ok_inv h
  obtain ⟨hi, hget⟩ := List.getElem?_eq_some.mp hir
  have := buildResults_ranks _ _ _ _ _ hb i hi
  rw [List.get_eq_getElem, hget] at this
  omega

theorem find_similar_case_id_is_rank_witness :
    (⟨2, 2, "glioma", "p4", "f4", 0⟩ : CaseResult).case_id = 1 + 1 ∧
    (⟨2, 2, "glioma", "p4", "f4", 0⟩ : CaseResult).rank = 1 + 1 :=
  @find_similar_case_id_is_rank stFive "q" 3 rsThree stFive_query_three 1 _ (by decide)

/-- C2: every successful result list is sorted by descending
`similarity_score` and strictly ascending `case_id`; in particular whenever
two entries have equal `similarity_score`, the entry with the smaller
`case_id` appears earlier, and the ordering of the output is a deterministic
function of the inputs. -/
theorem find_similar_sorted_deterministic {st : SearchState} {img : String}
    {k : Int} {rs : List CaseResult}
    (h : find_similar_cases st img k = .ok rs) :
    List.Pairwise (fun a b : CaseResult =>
      b.similarity_score ≤ a.similarity_score ∧ a.case_id < b.case_id) rs := by
  obtain ⟨model, embs, sims, hm, he, hd, hb⟩ := find_ok_inv h
  have hscores := buildResults_scores _ _ _ _ _ hb
  obtain ⟨n, htake⟩ := pySlice_eq_take (argsort sims).reverse k
  have htop : List.Pairwise (fun i j => sims.getD j 0 ≤ sims.getD i 0)
      (pySlice (argsort sims).reverse k) := by
    rw [htake]
    exact List.Pairwise.sublist (List.take_sublist _ _) (argsort_reverse_sorted sims)
  have h1 : List.Pairwise (fun a b : ℚ => b ≤ a)
      (rs.map CaseResult.similarity_score) := by
    rw [hscores]
    exact List.pairwise_map.mpr htop
  have hscore_pw : List.Pairwise (fun a b : CaseResult =>
      b.similarity_score ≤ a.similarity_score) rs := List.pairwise_map.mp h1
  have hranks := buildResults_ranks _ _ _ _ _ hb
  have hid_pw : List.Pairwise (fun a b : CaseResult => a.case_id < b.case_id) rs := by
    rw [List.pairwise_iff_get]
    intro i j hij
    have hi2 : (rs.get i).case_id = 1 + (i : ℕ) := (hranks i i.isLt).1
    have hj2 : (rs.get j).case_id = 1 + (j : ℕ) := (hranks j j.isLt).1
    have hij2 : (i : ℕ) < (j : ℕ) := hij
    omega
  exact hscore_pw.and hid_pw

theorem find_similar_sorted_deterministic_witness :
    List.Pairwise (fun a b : CaseResult =>
      b.similarity_score ≤ a.similarity_score ∧ a.case_id < b.case_id) rsThree :=
  @find_similar_sorted_deterministic stFive "q" 3 rsThree stFive_query_three

/-- C4 counterexample: `k` has no lower clamp.  Against the five-row index
`stFive`, a request with `k = 0` returns a successful result list with zero
entries, contradicting the claim that every request yields at least one
result. -/
theorem find_similar_k_zero_counterexample :
    embsFive.length = 5 ∧ find_similar_cases stFive "q" 0 = .ok [] := by
  constructor
  · rfl
  · decide

/-- C4 amended: for a loaded index of `N` rows, a requested `k ≥ 0` is
clamped above to `N` — the call succeeds and returns `min k N` results (so
`k = 1000` against a five-row index returns exactly five results, not an
error) — but there is no lower clamp: `k = 0` yields zero results. -/
theorem find_similar_k_clamped_above (st : SearchState) (img : String)
    (model : String → List ℚ) (embs : List (List ℚ)) (paths : List ImageInfo)
    (k : Int) (hm : st.vector_model = some model)
    (he : st.real_image_embeddings = some embs)
    (hpaths : st.real_image_paths = some paths)
    (hlen : paths.length = embs.length)
    (hrows : ∀ row ∈ embs, row.length = (model img).length) (hk : 0 ≤ k) :
    ∃ rs, find_similar_cases st img k = .ok rs ∧
      rs.length = min k.toNat embs.length := by
  have hd := matDot_ok_of_rows hrows
  set sims := embs.map (fun row => dotQ row (model img)) with hsims
  have hNs : sims.length = embs.length := by simp [hsims]
  have htop_eq : pySlice (argsort sims).reverse k = (argsort sims).reverse.take k.toNat :=
    pySlice_nonneg _ _ hk
  set top := (argsort sims).reverse.take k.toNat with htopdef
  have hmem : ∀ i ∈ top, i < embs.length := by
    intro i hi
    have hrev : i ∈ (argsort sims).reverse :=
      List.Sublist.mem hi (List.take_sublist _ _)
    rw [mem_argsort_reverse, hNs] at hrev
    exact hrev
  obtain ⟨rs, hb⟩ := buildResults_isOk paths sims top
    (fun i hi => hlen ▸ hmem i hi) (fun i hi => hNs ▸ hmem i hi) 1
  have hgd : st.real_image_paths.getD [] = paths := by rw [hpaths]; rfl
  refine ⟨rs, ?_, ?_⟩
  · refine find_similar_eq hm he hd ?_
    rw [hgd, htop_eq]
    exact hb
  · have hlrs := buildResults_length _ _ _ _ _ hb
    rw [hlrs, htopdef, List.length_take, argsort_reverse_length, hNs]

theorem find_similar_k_clamped_above_witness :
    ∃ rs, find_similar_cases stFive "q" 1000 = .ok rs ∧
      rs.length = min (Int.toNat 1000) embsFive.length :=
  find_similar_k_clamped_above stFive "q" modelW embsFive pathsFive 1000
    rfl rfl rfl (by decide) (by decide) (by decide)

/-- C1: for a loaded index of stored unit-norm rows, a unit-norm query
embedding, and a requested `k` with `1 ≤ k ≤ N`, the query returns exactly
`k` results drawn from `k` distinct stored rows — each result carrying that
row's metadata and its dot-product similarity — ordered by descending
similarity score, and every stored row that was not selected has similarity
at most that of every returned result: the returned rows are `k` rows with
the `k` largest dot products. -/
theorem find_similar_top_k (st : SearchState) (img : String)
    (model : String → List ℚ) (embs : List (List ℚ)) (paths : List ImageInfo)
    (k : Int) (hm : st.vector_model = some model)
    (he : st.real_image_embeddings = some embs)
    (hpaths : st.real_image_paths = some paths)
    (hlen : paths.length = embs.length)
    (hrows : ∀ row ∈ embs, row.length = (model img).length)
    (hunit : ∀ row ∈ embs, sumSq row = 1) (hqunit : sumSq (model img) = 1)
    (hk1 : 1 ≤ k) (hk2 : k ≤ (embs.length : Int)) :
    ∃ rs top,
      find_similar_cases st img k = .ok rs ∧
      rs.length = k.toNat ∧ top.length = k.toNat ∧ top.Nodup ∧
      (∀ i ∈ top, i < embs.length) ∧
      rs.map CaseResult.similarity_score =
        top.map (fun i => (embs.map (fun row => dotQ row (model img))).getD i 0) ∧
      List.Forall₂ (fun i r =>
        paths[i]? = some ⟨r.file_path, r.label, r.filename⟩ ∧
        (embs.map (fun row => dotQ row (model img)))[i]? = some r.similarity_score)
        top rs ∧
      List.Pairwise (fun a b : CaseResult =>
        b.similarity_score ≤ a.similarity_score) rs ∧
      ∀ j < embs.length, j ∉ top → ∀ r ∈ rs,
        (embs.map (fun row => dotQ row (model img))).getD j 0 ≤
          r.similarity_score := by
  have hd := matDot_ok_of_rows hrows
  set sims := embs.map (fun row => dotQ row (model img)) with hsims
  have hNs : sims.length = embs.length := by simp [hsims]
  have hk0 : (0 : Int) ≤ k := le_trans (by norm_num) hk1
  have htop_eq : pySlice (argsort sims).reverse k =
      (argsort sims).reverse.take k.toNat := pySlice_nonneg _ _ hk0
  set top := (argsort sims).reverse.take k.toNat with htopdef
  have hmem : ∀ i ∈ top, i < embs.length := by
    intro i hi
    have hrev : i ∈ (argsort sims).reverse :=
      List.Sublist.mem hi (List.take_sublist _ _)
    rw [mem_argsort_reverse, hNs] at hrev
    exact hrev
  obtain ⟨rs, hb⟩ := buildResults_isOk paths sims top
    (fun i hi => hlen ▸ hmem i hi) (fun i hi => hNs ▸ hmem i hi) 1
  have hgd : st.real_image_paths.getD [] = paths := by rw [hpaths]; rfl
  have hfind : find_similar_cases st img k = .ok rs := by
    refine find_similar_eq hm he hd ?_
    rw [hgd, htop_eq]
    exact hb
  have hlen_top : top.length = k.toNat := by
    rw [htopdef, List.length_take, argsort_reverse_length, hNs]
    omega
  have hlen_rs : rs.length = k.toNat :=
    (buildResults_length _ _ _ _ _ hb).trans hlen_top
  have hnodup : top.Nodup :=
    List.Nodup.sublist (List.take_sublist _ _) (argsort_reverse_nodup sims)
  have hscores := buildResults_scores _ _ _ _ _ hb
  have hpayload := buildResults_payload _ _ _ _ _ hb
  have hsorted_top : List.Pairwise (fun i j => sims.getD j 0 ≤ sims.getD i 0) top :=
    List.Pairwise.sublist (List.take_sublist _ _) (argsort_reverse_sorted sims)
  have h1 : List.Pairwise (fun a b : ℚ => b ≤ a)
      (rs.map CaseResult.similarity_score) := by
    rw [hscores]
    exact List.pairwise_map.mpr hsorted_top
  have hsorted_rs : List.Pairwise (fun a b : CaseResult =>
      b.similarity_score ≤ a.similarity_score) rs := List.pairwise_map.mp h1
  have hdom : ∀ j < embs.length, j ∉ top → ∀ r ∈ rs,
      sims.getD j 0 ≤ r.similarity_score := by
    intro j hj hnot r hr
    have hjrev : j ∈ (argsort sims).reverse := by
      rw [mem_argsort_reverse, hNs]
      exact hj
    have hsplit := List.take_append_drop k.toNat (argsort sims).reverse
    have hj2 : j ∈ top ++ (argsort sims).reverse.drop k.toNat := by
      rw [htopdef, hsplit]
      exact hjrev
    have hjdrop : j ∈ (argsort sims).reverse.drop k.toNat := by
      rcases List.mem_append.mp hj2 with h | h
      · exact absurd h hnot
      · exact h
    have hpw : List.Pairwise (fun a b => sims.getD b 0 ≤ sims.getD a 0)
        (top ++ (argsort sims).reverse.drop k.toNat) := by
      rw [htopdef, hsplit]
      exact argsort_reverse_sorted sims
    obtain ⟨-, -, hcross⟩ := List.pairwise_append.mp hpw
    have hrscore : r.similarity_score ∈ top.map (fun i => sims.getD i 0) := by
      rw [← hscores]
      exact List.mem_map_of_mem _ hr
    obtain ⟨i, hi_top, hi_eq⟩ := List.mem_map.mp hrscore
    rw [← hi_eq]
    exact hcross i hi_top j hjdrop
  exact ⟨rs, top, hfind, hlen_rs, hlen_top, hnodup, hmem, hscores, hpayload,
    hsorted_rs, hdom⟩

theorem find_similar_top_k_witness :
    ∃ rs top,
      find_similar_cases stFive "q" 3 = .ok rs ∧
      rs.length = (3 : Int).toNat ∧ top.length = (3 : Int).toNat ∧ top.Nodup ∧
      (∀ i ∈ top, i < embsFive.length) ∧
      rs.map CaseResult.similarity_score =
        top.map (fun i => (embsFive.map (fun row => dotQ row (modelW "q"))).getD i 0) ∧
      List.Forall₂ (fun i r =>
        pathsFive[i]? = some ⟨r.file_path, r.label, r.filename⟩ ∧
        (embsFive.map (fun row => dotQ row (modelW "q")))[i]? = some r.similarity_score)
        top rs ∧
      List.Pairwise (fun a b : CaseResult =>
        b.similarity_score ≤ a.similarity_score) rs ∧
      ∀ j < embsFive.length, j ∉ top → ∀ r ∈ rs,
        (embsFive.map (fun row => dotQ row (modelW "q"))).getD j 0 ≤
          r.similarity_score :=
  find_similar_top_k stFive "q" modelW embsFive pathsFive 3 rfl rfl rfl
    (by decide) (by decide) (by norm_num [embsFive, sumSq])
    (by norm_num [modelW, sumSq]) (by norm_num) (by norm_num [embsFive])

/-- C7: a query vector whose length differs from the stored embedding
dimension (512) is rejected: the shape validation of `np.dot` fails before
any dot product against a stored row is computed, and the call returns the
dimension-mismatch error payload rather than any result list. -/
theorem find_similar_dimension_mismatch (st : SearchState) (img : String)
    (k : Int) (model : String → List ℚ) (embs : List (List ℚ))
    (hm : st.vector_model = some model)
    (he : st.real_image_embeddings = some embs) (hne : embs ≠ [])
    (hrows : ∀ row ∈ embs, row.length = 512)
    (hq : (model img).length ≠ 512) :
    find_similar_cases st img k =
      .error ("Vector search failed: " ++ "shapes not aligned") := by
  have hd := matDot_mismatch hne hrows hq
  simp only [find_similar_cases, hm, he, hd]

theorem find_similar_dimension_mismatch_witness :
    find_similar_cases stBad "q" 8 =
      .error ("Vector search failed: " ++ "shapes not aligned") :=
  find_similar_dimension_mismatch stBad "q" 8 modelBad embs512 rfl rfl
    (by simp [embs512]) (by simp [embs512]) (by simp [modelBad])

/-! ### Unit-norm lemmas -/

theorem sumSq_normalizeVec (v : List ℚ) (n : ℚ) :
    sumSq (normalizeVec v n) = sumSq v / (n * n) := by
  induction v with
  | nil => simp [sumSq, normalizeVec]
  | cons x xs ih =>
    simp only [sumSq, normalizeVec, List.map_cons, List.sum_cons] at ih ⊢
    rw [ih, div_mul_div_comm, div_add_div_same]

theorem normalizeVec_unit {v : List ℚ} {n : ℚ}
    (h1 : n * n = sumSq v) (h2 : sumSq v ≠ 0) :
    sumSq (normalizeVec v n) = 1 := by
  rw [sumSq_normalizeVec, h1, div_self h2]

theorem make_vectors_unit_norm (decode : String → Option (List ℚ))
    (nrm : List ℚ → ℚ) :
    ∀ (paths : List String) (vs : List (List ℚ)),
      (∀ p ∈ paths, ∀ v, decode p = some v →
        nrm v * nrm v = sumSq v ∧ sumSq v ≠ 0) →
      make_vectors decode nrm paths = .ok vs →
      ∀ row ∈ vs, sumSq row = 1 := by
  intro paths
  induction paths with
  | nil =>
    intro vs _ hmk
    injection hmk with h
    subst h
    simp
  | cons p rest ih =>
    intro vs hall hmk
    cases hd : decode p with
    | none => simp [make_vectors, hd] at hmk
    | some v =>
      cases hr : make_vectors decode nrm rest with
      | error e => simp [make_vectors, hd, hr] at hmk
      | ok vs' =>
        simp [make_vectors, hd, hr] at hmk
        subst hmk
        intro row hrow
        rcases List.mem_cons.mp hrow with h | h
        · obtain ⟨h1, h2⟩ := hall p (by simp) v hd
          rw [h]
          exact normalizeVec_unit h1 h2
        · exact ih vs' (fun q hq => hall q (by simp [hq])) hr row h

/-- C5: every successfully produced embedding is unit-norm.  `embed_image`
divides the backbone feature vector by its own L2 norm, so the result has
squared L2 norm exactly 1 — i.e. its L2 norm is 1, well within the 1e-5
tolerance — and keeps its 512 dimensions; every row stored by the
make_vectors.py build satisfies the same property, because the build applies
the identical normalisation. -/
theorem embeddings_unit_norm (backbone : String → List ℚ) (nrm : List ℚ → ℚ)
    (img : String) (decode : String → Option (List ℚ))
    (paths : List String) (vs : List (List ℚ))
    (hq1 : nrm (backbone img) * nrm (backbone img) = sumSq (backbone img))
    (hq2 : sumSq (backbone img) ≠ 0)
    (hlen : (backbone img).length = 512)
    (hall : ∀ p ∈ paths, ∀ v, decode p = some v →
      nrm v * nrm v = sumSq v ∧ sumSq v ≠ 0)
    (hmk : make_vectors decode nrm paths = .ok vs) :
    (sumSq (embed_image backbone nrm img) = 1 ∧
      (embed_image backbone nrm img).length = 512) ∧
    ∀ row ∈ vs, sumSq row = 1 := by
  refine ⟨⟨normalizeVec_unit hq1 hq2, ?_⟩,
    make_vectors_unit_norm decode nrm paths vs hall hmk⟩
  simp [embed_image, normalizeVec, hlen]

theorem embeddings_unit_norm_witness :
    (sumSq (embed_image backboneW nrmW "x") = 1 ∧
      (embed_image backboneW nrmW "x").length = 512) ∧
    ∀ row ∈ [normalizeVec [3, 4] (nrmW [3, 4])], sumSq row = 1 :=
  embeddings_unit_norm backboneW nrmW "x" decodeW ["a"]
    [normalizeVec [3, 4] (nrmW [3, 4])]
    (by norm_num [backboneW, nrmW, sumSq, List.map_replicate, List.sum_replicate])
    (by norm_num [backboneW, sumSq, List.map_replicate, List.sum_replicate])
    (by simp [backboneW])
    (by
      intro p hp v hv
      simp only [decodeW, Option.some.injEq] at hv
      subst hv
      constructor <;> norm_num [nrmW, sumSq])
    rfl

/-! ### Builder and loader lemmas -/

theorem build_meta_ids (dirs : List (String × List String)) :
    ∀ c, (build_meta dirs c).map MetaRow.id = List.range' c (totalFiles dirs) := by
  induction dirs with
  | nil => intro c; simp [build_meta, totalFiles]
  | cons d rest ih =>
    intro c
    obtain ⟨dirname, files⟩ := d
    have h2 : files.enum.map (fun p => c + p.1) = List.range' c files.length := by
      rw [List.enum_eq_zip_range]
      have hsplit : List.map (fun p : ℕ × String => c + p.1)
          ((List.range files.length).zip files)
          = List.map (fun x => c + x)
              (List.map Prod.fst ((List.range files.length).zip files)) := by
        rw [List.map_map]
        rfl
      rw [hsplit, List.map_fst_zip _ _ (by simp), ← List.range'_eq_map_range]
    have h3 := List.range'_append c files.length (totalFiles rest) 1
    simp only [one_mul] at h3
    calc (build_meta ((dirname, files) :: rest) c).map MetaRow.id
        = files.enum.map (fun p => c + p.1) ++
            (build_meta rest (c + files.length)).map MetaRow.id := by
          simp only [build_meta, List.map_append, List.map_map]
          rfl
      _ = List.range' c files.length ++
            List.range' (c + files.length) (totalFiles rest) := by
          rw [h2, ih]
      _ = List.range' c (totalFiles rest + files.length) := h3
      _ = List.range' c (totalFiles ((dirname, files) :: rest)) := by
          simp [totalFiles, Nat.add_comm]

theorem make_vectors_abort (decode : String → Option (List ℚ))
    (nrm : List ℚ → ℚ) :
    ∀ paths : List String, (∃ p ∈ paths, decode p = none) →
      ∃ e, make_vectors decode nrm paths = .error e := by
  intro paths
  induction paths with
  | nil =>
    rintro ⟨p, hp, -⟩
    simp at hp
  | cons q rest ih =>
    rintro ⟨p, hp, hnone⟩
    cases hq : decode q with
    | none => exact ⟨q, by simp [make_vectors, hq]⟩
    | some v =>
      have hprest : p ∈ rest := by
        rcases List.mem_cons.mp hp with h | h
        · rw [h, hq] at hnone
          cases hnone
        · exact h
      obtain ⟨e, he⟩ := ih ⟨p, hprest, hnone⟩
      exact ⟨e, by simp [make_vectors, hq, he]⟩

theorem loadDir_forall₂ (embed : String → Option (List ℚ)) (tt : String) :
    ∀ files, List.Forall₂ (fun info v => embed info.path = some v)
      (loadDir embed tt files).1 (loadDir embed tt files).2 := by
  intro files
  induction files with
  | nil => exact List.Forall₂.nil
  | cons f fs ih =>
    cases he : embed (tt ++ "/" ++ f) with
    | none => simpa [loadDir, he] using ih
    | some v =>
      simp only [loadDir, he]
      exact List.Forall₂.cons he ih

theorem load_forall₂ (embed : String → Option (List ℚ)) :
    ∀ dirs, List.Forall₂ (fun info v => embed info.path = some v)
      (load_real_image_embeddings embed dirs).1
      (load_real_image_embeddings embed dirs).2 := by
  intro dirs
  induction dirs with
  | nil => exact List.Forall₂.nil
  | cons d rest ih =>
    obtain ⟨tt, files⟩ := d
    simp only [load_real_image_embeddings]
    exact List.rel_append (loadDir_forall₂ embed tt files) ih

theorem loadDir_length (embed : String → Option (List ℚ)) (tt : String) :
    ∀ files, (loadDir embed tt files).1.length =
      (files.filter (fun f => (embed (tt ++ "/" ++ f)).isSome)).length := by
  intro files
  induction files with
  | nil => rfl
  | cons f fs ih =>
    cases he : embed (tt ++ "/" ++ f) with
    | none => simp [loadDir, he, List.filter_cons, ih]
    | some v => simp [loadDir, he, List.filter_cons, ih]

theorem load_length_eq_countOk (embed : String → Option (List ℚ)) :
    ∀ dirs, (load_real_image_embeddings embed dirs).1.length =
      countOk embed dirs := by
  intro dirs
  induction dirs with
  | nil => rfl
  | cons d rest ih =>
    obtain ⟨tt, files⟩ := d
    simp [load_real_image_embeddings, countOk, loadDir_length, ih,
      List.map_cons, List.sum_cons]

/-- C3 counterexample: with a build tree of ten images of which one is
corrupt, the offline build does not skip the corrupt image: build_meta.py
still assigns it an id (the metadata has all 10 rows and lists the corrupt
path), and make_vectors.py aborts the whole run with the decode exception
instead of producing nine embeddings. -/
theorem build_decode_failure_counterexample :
    ((build_meta dirsTen 0).map MetaRow.file_path).contains
      "glioma/corrupt.jpg" = true ∧
    (build_meta dirsTen 0).length = 10 ∧
    make_vectors decodeTen nrmOne
      ((build_meta dirsTen 0).map MetaRow.file_path) =
      .error "glioma/corrupt.jpg" :=
  ⟨by decide, by decide, rfl⟩

/-- C3 amended: in the offline build pipeline an image that fails to decode
is not skipped: build_meta.py assigns ids `c, c+1, ...` to every discovered
file without opening it, and make_vectors.py aborts with the exception as
soon as any listed file fails to decode.  The skip-without-abort policy
holds only in the runtime loader `load_real_image_embeddings`, which keeps
exactly the successfully embedded images: both output tables have one row
per success (so one corrupt image among 10 valid ones yields 9 aligned rows
occupying positions 0..8). -/
theorem build_decode_failure_policy (dirs : List (String × List String))
    (c : ℕ) (decode : String → Option (List ℚ)) (nrm : List ℚ → ℚ) :
    (build_meta dirs c).map MetaRow.id = List.range' c (totalFiles dirs) ∧
    ((∃ p ∈ (build_meta dirs c).map MetaRow.file_path, decode p = none) →
      ∃ e, make_vectors decode nrm
        ((build_meta dirs c).map MetaRow.file_path) = .error e) ∧
    (load_real_image_embeddings decode dirs).1.length = countOk decode dirs ∧
    (load_real_image_embeddings decode dirs).2.length = countOk decode dirs := by
  refine ⟨build_meta_ids dirs c, make_vectors_abort decode nrm _,
    load_length_eq_countOk decode dirs, ?_⟩
  rw [← (load_forall₂ decode dirs).length_eq]
  exact load_length_eq_countOk decode dirs

theorem build_decode_failure_policy_witness :
    (build_meta dirsTen 0).map MetaRow.id = List.range' 0 (totalFiles dirsTen) ∧
    (∃ e, make_vectors decodeTen nrmOne
      ((build_meta dirsTen 0).map MetaRow.file_path) = .error e) ∧
    (load_real_image_embeddings decodeTen dirsTen).1.length = 9 :=
  ⟨(build_decode_failure_policy dirsTen 0 decodeTen nrmOne).1,
   (build_decode_failure_policy dirsTen 0 decodeTen nrmOne).2.1
     ⟨"glioma/corrupt.jpg", by decide, by decide⟩,
   ((build_decode_failure_policy dirsTen 0 decodeTen nrmOne).2.2.1).trans
     (by decide)⟩

/-- C10: after the runtime loader finishes, the paths table and the embedding
matrix are aligned: they have equal length, and for every row index `i` the
`i`-th embedding row is exactly the embedding of the image described by the
`i`-th path record; skipped (failed) images never break this alignment
because path and embedding are appended together only on success. -/
theorem load_alignment (embed : String → Option (List ℚ))
    (dirs : List (String × List String)) :
    (load_real_image_embeddings embed dirs).1.length =
      (load_real_image_embeddings embed dirs).2.length ∧
    ∀ i (h1 : i < (load_real_image_embeddings embed dirs).1.length)
      (h2 : i < (load_real_image_embeddings embed dirs).2.length),
      embed (((load_real_image_embeddings embed dirs).1.get ⟨i, h1⟩).path) =
        some ((load_real_image_embeddings embed dirs).2.get ⟨i, h2⟩) := by
  have h := load_forall₂ embed dirs
  rw [List.forall₂_iff_get] at h
  exact h

theorem load_alignment_witness :
    (load_real_image_embeddings decodeTen dirsTen).1.length =
      (load_real_image_embeddings decodeTen dirsTen).2.length ∧
    decodeTen (((load_real_image_embeddings decodeTen dirsTen).1.get
        ⟨0, by decide⟩).path) =
      some ((load_real_image_embeddings decodeTen dirsTen).2.get
        ⟨0, by decide⟩) :=
  ⟨(load_alignment decodeTen dirsTen).1,
   (load_alignment decodeTen dirsTen).2 0 (by decide) (by decide)⟩

end Synaptiq
